import Mathlib

/-
Verification of the comment-parsing and thumbnail-layout pipeline of
`src/contestthumbnailer.py`.

The Python program is shallowly embedded below.  External collaborators are
modelled as oracle functions passed in as parameters:
  * `reSearch` models Python's `re.search` for the fixed patterns: it returns
    `none` when the pattern does not match and otherwise a match object whose
    `group1` field is `Except.error ()` when accessing group 1 raises
    `IndexError`, `Except.ok none` when group 1 did not participate in the
    match, and `Except.ok (some s)` when it captured the text `s`.
  * `endorsed` models the `Comment(...)`/`get_votes()` endorsement lookup of
    `_parseComments`: `endorsed permlink = true` iff the lookup succeeded and
    the stringified vote list contains the marker `lmac`; exceptions and a
    missing marker are both `false`.
  * `fs` models the template files on disk: `fs name = none` when
    `os.path.isfile` is false, and `some content` otherwise.
Python `str.replace` is embedded as the executable function `pyReplace`
(left-to-right, non-overlapping, all occurrences, no rescanning of the
replacement text), and image bitmaps are reduced to their `(width, height)`
pixel sizes, the only fields the layout code reads.
-/

/-- Constant `THUMBNAIL_MARGIN_IN_IMAGE` from the source (line 38). -/
def THUMBNAIL_MARGIN_IN_IMAGE : Nat := 10

/-- Constant `MAX_THUMBNAIL_WIDTH_IN_IMAGE` from the source (line 37). -/
def MAX_THUMBNAIL_WIDTH_IN_IMAGE : Nat := 160

/-- Constant `MAX_THUMBNAILS_PER_ROW_IN_IMAGE` from the source (line 39). -/
def MAX_THUMBNAILS_PER_ROW_IN_IMAGE : Nat := 20

/-- Constant `DEFAULT_IMAGE_URL` from the source (line 35). -/
def DEFAULT_IMAGE_URL : String :=
  "https://files.peakd.com/file/peakd-hive/quantumg/23tSh9ZCk2m46Yy9XQeQErkwL99fsdQjsxH9A6T4WKyi7BCDs3y4Q6pE3zMfDF4ggv5TS.png"

/-- Constant `REGEX_IMAGE_URL` from the source (line 32); the pattern text is
carried around only as an opaque key handed to the `re.search` oracle. -/
def REGEX_IMAGE_URL : String :=
  "((?:https://.*\\.(?:gif|jpg|png|jpeg))|(?:https://images\\.hive\\.blog/p/[A-Za-z0-9_\\-@\\/]*)|(?:https://images\\.ecency\\.com/p/[A-Za-z0-9_\\-@\\/]*))"

/-- Constant `REGEX_POST_URL` from the source (line 33). -/
def REGEX_POST_URL : String :=
  "(https://(?:peakd\\.com|hive\\.blog|ecency\\.com)/[a-z0-9_\\-@\\/\\.]*)"

/-- Constant `AUTHOR_BLACKLIST` from the source (line 44). -/
def AUTHOR_BLACKLIST : List String :=
  ["abdt", "abiproud", "adebayo22", "airscam00", "aliframadhan", "aniascs",
   "anne0208", "aris-indonesia", "artrage", "assegai", "ayahdindin",
   "belovedave", "boeh-u-leuping", "bulukat2seung", "camila-jhon",
   "captain70", "chipino", "daniella619", "danladi", "deep.crypto",
   "dreamchasers", "dwixer", "ellenklech", "emerline", "ferart01", "fibre1",
   "filipz", "findoutmark", "fudin-jfr", "fundin-jfr", "gabriella3594",
   "getovertools", "ghinamidrara", "giftjames", "gomessteem", "hafis",
   "hardiericsson", "herman-sbd", "holy.moly", "iamdenny", "icon-bassey",
   "jhokenecty", "kadyrova", "kalkulus001", "kamariah", "kater001",
   "khantika", "kingobonnaya", "lamboe", "lexi01", "lilpen", "loco88",
   "mawalampoehbujok", "mcaspectacular", "mcluz", "mizuno35", "mnzie01",
   "mochi3", "morenxo", "nabilswap", "nekbungoeng", "nellysteem", "nodzz",
   "nurudeen081", "oan-iata", "oliver-liam", "olenaginal", "ontarget0",
   "owleeya", "peazy001", "pictz", "poundrickshaw", "princedave12",
   "quimby-art", "raquel19", "realmaya", "sintiana", "starksteem",
   "steps100", "tailah.bayu1", "technoart", "techy22", "tember", "twenty4",
   "v0lga", "vareya", "weenyqueen", "weirdartist", "whizchick", "yoe1974"]

/-- Embedding of Python `str.replace` on character lists: scan left to right,
replace every non-overlapping occurrence of `pat`, never rescanning the
replacement text.  The recursion is driven by a fuel counter so that the
function is structurally recursive (hence kernel-computable); every step
consumes at least one input character, so fuel equal to the input length is
always enough, and the fuel-exhausted case is unreachable.  The `pat ≠ []`
guard mirrors that every pattern the program passes is a non-empty
literal. -/
def replaceListGo (pat repl : List Char) : Nat → List Char → List Char
  | _, [] => []
  | 0, l => l
  | fuel + 1, c :: rest =>
    if pat ≠ [] ∧ pat.isPrefixOf (c :: rest) then
      repl ++ replaceListGo pat repl fuel ((c :: rest).drop pat.length)
    else
      c :: replaceListGo pat repl fuel rest

/-- Python `str.replace` on character lists (see `replaceListGo`). -/
def replaceList (pat repl l : List Char) : List Char :=
  replaceListGo pat repl l.length l

/-- Python `s.replace(pat, repl)` on Lean strings. -/
def pyReplace (s pat repl : String) : String :=
  List.asString (replaceList pat.toList repl.toList s.toList)

/-- Model of a Python `re` match object: only the behaviour of
`matches.group(1)` is relevant to `_findByRegex`. -/
structure ReMatch where
  group1 : Except Unit (Option String)

/-- Embedding of `_findByRegex` (source lines 187-202).  `reSearch` is the
`re.search` oracle.  The source returns `''` when there is no match, returns
`''` when `matches.group(1)` is falsy (group absent, i.e. `None`, or the
empty string), and catches `IndexError` (a pattern without a group 1),
returning `''` in that case as well. -/
def _findByRegex (reSearch : String → String → Option ReMatch)
    (text regex : String) : String :=
  match reSearch text regex with
  | none => ""
  | some m =>
    match m.group1 with
    | Except.error _ => ""
    | Except.ok none => ""
    | Except.ok (some g) => if g = "" then ("") else g

/-- A raw comment as delivered by the feed collaborator: the two fields the
program reads are `comment.author` and `comment.body`. -/
structure BeemComment where
  author : String
  body : String
deriving DecidableEq

/-- The parsed-comment dictionary built by `_parseCommentBody` and
`_parseComments` (source lines 213-217 and 235). -/
structure ParsedComment where
  postUrl : String
  imageUrl : String
  author : String
  isDefaultImage : Bool
deriving DecidableEq

/-- Embedding of `_parseCommentBody` (source lines 205-217), with the
`isDefaultImage := false` initialisation of source line 235 attached.  The
extracted image url has the `https://images.hive.blog/0x0/` proxy-resize
prefix stripped by `str.replace`. -/
def _parseCommentBody (reSearch : String → String → Option ReMatch)
    (comment : BeemComment) : ParsedComment :=
  { postUrl := _findByRegex reSearch comment.body REGEX_POST_URL
    imageUrl := pyReplace (_findByRegex reSearch comment.body REGEX_IMAGE_URL)
      "https://images.hive.blog/0x0/" ""
    author := comment.author
    isDefaultImage := false }

/-- The mirror-domain rewriting applied to the post url (source lines
239-240). -/
def rewrittenPostUrl (u : String) : String :=
  pyReplace (pyReplace u ("https://hive.blog") ("https://peakd.com"))
    ("https://ecency.com") ("https://peakd.com")

/-- The endorsement-lookup key derived from the rewritten post url (source
line 242). -/
def hivePermlinkOf (u : String) : String :=
  pyReplace (rewrittenPostUrl u) ("https://peakd.com/hive-174695/") ("")

/-- One iteration of the `_parseComments` loop (source lines 230-257):
`none` means the `continue` paths (blocklisted author, no post url,
endorsement failure), `some` is the entry appended to the output list. -/
def processComment (reSearch : String → String → Option ReMatch)
    (endorsed : String → Bool) (comment : BeemComment) :
    Option ParsedComment :=
  if comment.author ∈ AUTHOR_BLACKLIST then none
  else
    let parsed := _parseCommentBody reSearch comment
    if parsed.postUrl = "" then none
    else
      let postUrl := rewrittenPostUrl parsed.postUrl
      let hivePermlink := hivePermlinkOf parsed.postUrl
      if endorsed hivePermlink then
        if parsed.imageUrl = "" then
          some { parsed with postUrl := postUrl,
                             imageUrl := DEFAULT_IMAGE_URL,
                             isDefaultImage := true }
        else
          some { parsed with postUrl := postUrl }
      else none

/-- Embedding of `_parseComments` (source lines 220-259): the loop appends at
most one entry per comment, in input order, with no cross-iteration state. -/
def _parseComments (reSearch : String → String → Option ReMatch)
    (endorsed : String → Bool) (comments : List BeemComment) :
    List ParsedComment :=
  comments.filterMap (processComment reSearch endorsed)

/-- Embedding of `_loadTemplateFile` (source lines 262-277): `os.path.isfile`
plus the read collapse into the file-system oracle `fs`. -/
def _loadTemplateFile (fs : String → Option String) (filename : String) :
    Option String :=
  fs filename

/-- Python truthiness test `not x` for a value that is either a string or
`None`: true for `None` and for the empty string. -/
def pyFalsyStr : Option String → Bool
  | none => true
  | some s => s = ""

/-- The three-placeholder substitution applied to the per-entry template.
For the markup path (source lines 324-326) this is literally the chain of
`str.replace` calls; for the markdown path (source lines 296-300) it models
`str.format` with the placeholders the template files use. -/
def substituteEntry (tpl postUrl imageUrl author : String) : String :=
  pyReplace (pyReplace (pyReplace tpl ("{postUrl}") postUrl)
    ("{imageUrl}") imageUrl) ("{author}") author

/-- Embedding of `_createMarkdownFromParsedComments` (source lines 280-302).
The Python function returns `False` when a template is falsy (missing file or
empty content); that failure value is modelled as `none`. -/
def _createMarkdownFromParsedComments (fs : String → Option String)
    (parsedComments : List ParsedComment) : Option String :=
  let bodyTemplate := _loadTemplateFile fs ("template_md_body.tpl")
  let imageTemplate := _loadTemplateFile fs ("template_md_image.tpl")
  if pyFalsyStr bodyTemplate || pyFalsyStr imageTemplate then none
  else
    let images := parsedComments.foldl
      (fun images pc =>
        images ++ substituteEntry (imageTemplate.getD ("")) pc.postUrl
          pc.imageUrl pc.author) ""
    some (pyReplace (bodyTemplate.getD ("")) ("{images}") images)

/-- Embedding of `_createHtmlMarkupFromParsedComments` (source lines
305-330), including the per-entry skip of entries whose image url and post
url are both falsy (source lines 321-322). -/
def _createHtmlMarkupFromParsedComments (fs : String → Option String)
    (parsedComments : List ParsedComment) : Option String :=
  let bodyTemplate := _loadTemplateFile fs ("template_html_body.tpl")
  let imageTemplate := _loadTemplateFile fs ("template_html_image.tpl")
  if pyFalsyStr bodyTemplate || pyFalsyStr imageTemplate then none
  else
    let images := parsedComments.foldl
      (fun images pc =>
        if pc.imageUrl = "" ∧ pc.postUrl = "" then images
        else
          images ++ substituteEntry (imageTemplate.getD ("")) pc.postUrl
            pc.imageUrl pc.author) ""
    some (pyReplace (bodyTemplate.getD ("")) ("{images}") images)

/-- The output file name chosen by `_saveMarkdownToDisk` (source lines
342-345): the caller-supplied name when present, otherwise the formatted
current date followed by `-GeneratedImageSheet` and the extension, which is
`.html` in markup mode and the literal `md` (no dot) otherwise.  The
`strftime` result is passed in as `nowDateStr`. -/
def _saveMarkdownFileName (saveAsHTMLFile : Bool) (specificName : Option String)
    (nowDateStr : String) : String :=
  let extension := if saveAsHTMLFile then (".html") else ("md")
  match specificName with
  | some name => name
  | none => nowDateStr ++ "-GeneratedImageSheet" ++ extension

/-- Embedding of the loop of `_calculateImageHeightByParsedComments` (source
lines 108-120), with the state `(height, col, largest)` threaded explicitly.
`imageObject.size[1]` becomes the list of thumbnail pixel heights. -/
def calcHeightLoop (columns : Nat) :
    List Nat → Nat → Nat → Nat → Nat × Nat × Nat
  | [], height, col, largest => (height, col, largest)
  | imgHeight :: rest, height, col, largest =>
    let imageHeight := imgHeight + THUMBNAIL_MARGIN_IN_IMAGE
    if col + 1 ≥ columns then
      calcHeightLoop columns rest (height + largest) 0 0
    else if largest < imageHeight then
      calcHeightLoop columns rest height (col + 1) imageHeight
    else
      calcHeightLoop columns rest height (col + 1) largest

/-- The epilogue of `_calculateImageHeightByParsedComments` (source lines
122-125): flush a trailing partial row, then add the final margin. -/
def calcHeightFinish : Nat × Nat × Nat → Nat
  | (height, col, largest) =>
    (if col > 0 then height + largest + THUMBNAIL_MARGIN_IN_IMAGE else height)
      + THUMBNAIL_MARGIN_IN_IMAGE

/-- Embedding of `_calculateImageHeightByParsedComments` (source lines
101-125) on the list of thumbnail pixel heights. -/
def _calculateImageHeightByParsedComments (heights : List Nat)
    (columns : Nat) : Nat :=
  calcHeightFinish (calcHeightLoop columns heights THUMBNAIL_MARGIN_IN_IMAGE 0 0)

/-- Embedding of the placement loop of `_createThumbnailPoster` (source lines
149-163): thumbnails are `(width, height)` pixel sizes, and the returned list
holds the `xy` paste position of each thumbnail in order.  The wrap test uses
the fixed constant `MAX_THUMBNAILS_PER_ROW_IN_IMAGE`, not the `columns`
parameter. -/
def posterPlaceLoop : List (Nat × Nat) → Nat × Nat → Nat → Nat →
    List (Nat × Nat)
  | [], _, _, _ => []
  | wh :: rest, xy, col, largest =>
    xy ::
      (let xy1 : Nat × Nat := (xy.1 + THUMBNAIL_MARGIN_IN_IMAGE + wh.1, xy.2)
       let largest1 := if largest < wh.2 then wh.2 else largest
       if col + 1 ≥ MAX_THUMBNAILS_PER_ROW_IN_IMAGE then
         posterPlaceLoop rest
           (THUMBNAIL_MARGIN_IN_IMAGE,
            xy1.2 + THUMBNAIL_MARGIN_IN_IMAGE + largest1) 0 0
       else
         posterPlaceLoop rest xy1 (col + 1) largest1)

/-- The thumbnail paste positions produced by `_createThumbnailPoster`,
starting from the cursor `(margin, margin)` (source line 143). -/
def posterPlacements (thumbs : List (Nat × Nat)) : List (Nat × Nat) :=
  posterPlaceLoop thumbs (THUMBNAIL_MARGIN_IN_IMAGE, THUMBNAIL_MARGIN_IN_IMAGE) 0 0

/-- Embedding of `_createThumbnailPoster` (source lines 128-167) reduced to
the geometric data it computes: the canvas width (source line 138), the
canvas height (source line 139) and the paste position of every thumbnail.
Only the width component reads the `columns` argument. -/
def _createThumbnailPoster (thumbs : List (Nat × Nat))
    (thumbnailWidth columns : Nat) : Nat × Nat × List (Nat × Nat) :=
  (((thumbnailWidth + THUMBNAIL_MARGIN_IN_IMAGE) * columns)
     + THUMBNAIL_MARGIN_IN_IMAGE,
   _calculateImageHeightByParsedComments (thumbs.map Prod.snd) columns,
   posterPlacements thumbs)

/-- Partition of a sequence into consecutive rows of `chunk` elements (the
last row may be shorter).  `rows (chunk+1)` always terminates; the unused
`chunk = 0` case is arbitrary. -/
def rows : Nat → List α → List (List α)
  | _, [] => []
  | 0, l => [l]
  | chunk + 1, a :: l =>
    (a :: l.take chunk) :: rows (chunk + 1) (l.drop chunk)
termination_by _ l => l.length
decreasing_by
  simp [List.length_drop]
  omega

/-- The running `largest` update of `_calculateImageHeightByParsedComments`
(source lines 119-120) folded over a list of thumbnail heights: the maximum
of `height + margin` over the list, starting from 0. -/
def rowLargest (l : List Nat) : Nat :=
  l.foldl
    (fun largest imgHeight =>
      if largest < imgHeight + THUMBNAIL_MARGIN_IN_IMAGE then
        imgHeight + THUMBNAIL_MARGIN_IN_IMAGE
      else largest) 0

/-- What one row contributes to the height accumulated by
`_calculateImageHeightByParsedComments`: a full row of exactly `columns`
thumbnails contributes the `largest` tracker at flush time, which has seen
every thumbnail of the row except the flushing (last) one; a trailing
partial row contributes its full `largest` plus one extra margin (source
lines 114-115 and 122-123). -/
def rowHeightContrib (columns : Nat) (row : List Nat) : Nat :=
  if row.length = columns then rowLargest row.dropLast
  else rowLargest row + THUMBNAIL_MARGIN_IN_IMAGE

/-- The running `largest` update of `_createThumbnailPoster` (source lines
158-159) over the `(width, height)` pairs of a row: the maximum thumbnail
pixel height of the row, starting from 0. -/
def rowTallest (row : List (Nat × Nat)) : Nat :=
  row.foldl (fun largest wh => if largest < wh.2 then wh.2 else largest) 0

/-- Positions of one poster row: the cursor starts at `(x, y)` and advances
by `margin + width` per thumbnail, keeping `y` (source line 156). -/
def placeRowAt (x y : Nat) : List (Nat × Nat) → List (Nat × Nat)
  | [] => []
  | wh :: rest => (x, y) :: placeRowAt (x + THUMBNAIL_MARGIN_IN_IMAGE + wh.1) y rest

/-- Positions of a list of poster rows: each row starts at `x = margin`, and
`y` advances by `margin + (tallest height of the row)` between rows (source
line 162). -/
def placeRowsAt (y : Nat) : List (List (Nat × Nat)) → List (Nat × Nat)
  | [] => []
  | row :: rest =>
    placeRowAt THUMBNAIL_MARGIN_IN_IMAGE y row
      ++ placeRowsAt (y + THUMBNAIL_MARGIN_IN_IMAGE + rowTallest row) rest

lemma calcHeightLoop_no_wrap (columns : Nat) :
    ∀ (l : List Nat) (rest : List Nat) (height col largest : Nat),
      col + l.length < columns →
      calcHeightLoop columns (l ++ rest) height col largest =
        calcHeightLoop columns rest height (col + l.length)
          (l.foldl
            (fun lg ih =>
              if lg < ih + THUMBNAIL_MARGIN_IN_IMAGE then
                ih + THUMBNAIL_MARGIN_IN_IMAGE
              else lg) largest)
  | [], rest, height, col, largest, _ => by simp [calcHeightLoop]
  | a :: t, rest, height, col, largest, h => by
    have hlt : ¬ (col + 1 ≥ columns) := by
      simp [List.length_cons] at h
      omega
    have ht : (col + 1) + t.length < columns := by
      simp [List.length_cons] at h
      omega
    simp only [List.cons_append, calcHeightLoop, hlt, if_false, List.append_eq]
    by_cases hb : largest < a + THUMBNAIL_MARGIN_IN_IMAGE
    · simp only [hb, if_true]
      rw [calcHeightLoop_no_wrap columns t rest height (col + 1) _ ht]
      simp [List.foldl_cons, hb]
      ring_nf
    · simp only [hb, if_false]
      rw [calcHeightLoop_no_wrap columns t rest height (col + 1) _ ht]
      simp [List.foldl_cons, hb]
      ring_nf

lemma calcHeightLoop_full_row (columns : Nat) (hc : 1 ≤ columns)
    (l rest : List Nat) (hl : l.length = columns) (height : Nat) :
    calcHeightLoop columns (l ++ rest) height 0 0 =
      calcHeightLoop columns rest (height + rowLargest l.dropLast) 0 0 := by
  rcases List.eq_nil_or_concat l with rfl | ⟨L, b, rfl⟩
  · simp at hl
    omega
  · simp only [List.concat_eq_append] at hl ⊢
    have hL : L.length = columns - 1 := by
      simp at hl
      omega
    have hlt : 0 + L.length < columns := by omega
    rw [List.append_assoc, List.singleton_append,
      calcHeightLoop_no_wrap columns L (b :: rest) height 0 0 hlt]
    have hge : (0 + L.length) + 1 ≥ columns := by omega
    simp only [calcHeightLoop, hge, if_true]
    simp [rowLargest]

lemma calcHeightLoop_all (columns : Nat) (l : List Nat)
    (height col largest : Nat) (h : col + l.length < columns) :
    calcHeightLoop columns l height col largest =
      (height, col + l.length,
        l.foldl
          (fun lg ih =>
            if lg < ih + THUMBNAIL_MARGIN_IN_IMAGE then
              ih + THUMBNAIL_MARGIN_IN_IMAGE
            else lg) largest) := by
  have hnw := calcHeightLoop_no_wrap columns l [] height col largest h
  simpa [calcHeightLoop] using hnw

lemma calcHeight_characterization (columns : Nat) (hc : 1 ≤ columns) :
    ∀ (n : Nat) (heights : List Nat), heights.length ≤ n → ∀ height : Nat,
      calcHeightFinish (calcHeightLoop columns heights height 0 0) =
        height + THUMBNAIL_MARGIN_IN_IMAGE +
          ((rows columns heights).map (rowHeightContrib columns)).sum := by
  intro n
  induction n with
  | zero =>
    intro heights hlen height
    have hnil : heights = [] := List.eq_nil_of_length_eq_zero (by omega)
    subst hnil
    simp [calcHeightLoop, calcHeightFinish, rows]
  | succ n ihn =>
    intro heights hlen height
    match heights with
    | [] => simp [calcHeightLoop, calcHeightFinish, rows]
    | a :: t =>
      obtain ⟨c, rfl⟩ : ∃ c, columns = c + 1 := ⟨columns - 1, by omega⟩
      by_cases hshort : (a :: t).length < c + 1
      · rw [calcHeightLoop_all (c + 1) (a :: t) height 0 0 (by omega)]
        have htake : t.take c = t := List.take_of_length_le (by simp at hshort; omega)
        have hdrop : t.drop c = [] := List.drop_eq_nil_of_le (by simp at hshort; omega)
        have hrows : rows (c + 1) (a :: t) = [a :: t] := by
          simp [rows, htake, hdrop]
        have hne : (a :: t).length ≠ c + 1 := by omega
        have hcontrib : rowHeightContrib (c + 1) (a :: t) =
            rowLargest (a :: t) + THUMBNAIL_MARGIN_IN_IMAGE := by
          unfold rowHeightContrib
          rw [if_neg hne]
        rw [hrows]
        simp only [List.map_cons, List.map_nil, List.sum_cons, List.sum_nil, hcontrib]
        have hfold :
            (a :: t).foldl
              (fun lg ih =>
                if lg < ih + THUMBNAIL_MARGIN_IN_IMAGE then
                  ih + THUMBNAIL_MARGIN_IN_IMAGE
                else lg) 0 = rowLargest (a :: t) := rfl
        rw [hfold]
        have hfin : calcHeightFinish
            (height, 0 + (a :: t).length, rowLargest (a :: t)) =
            height + rowLargest (a :: t) + THUMBNAIL_MARGIN_IN_IMAGE
              + THUMBNAIL_MARGIN_IN_IMAGE := by
          simp [calcHeightFinish]
        rw [hfin]
        show height + rowLargest (a :: t) + THUMBNAIL_MARGIN_IN_IMAGE
            + THUMBNAIL_MARGIN_IN_IMAGE =
          height + THUMBNAIL_MARGIN_IN_IMAGE
            + (rowLargest (a :: t) + THUMBNAIL_MARGIN_IN_IMAGE + 0)
        ring
      · have hsplit : (a :: t).take (c + 1) ++ (a :: t).drop (c + 1) = a :: t :=
          List.take_append_drop (c + 1) (a :: t)
        have hlen1 : ((a :: t).take (c + 1)).length = c + 1 := by
          simp only [List.length_take, List.length_cons]
          simp only [List.length_cons] at hshort
          omega
        rw [← hsplit,
          calcHeightLoop_full_row (c + 1) hc ((a :: t).take (c + 1))
            ((a :: t).drop (c + 1)) hlen1 height,
          ihn ((a :: t).drop (c + 1)) (by simp [List.length_drop] at hlen ⊢; omega)]
        have hrows : rows (c + 1) (a :: t) =
            (a :: t).take (c + 1) :: rows (c + 1) ((a :: t).drop (c + 1)) := by
          simp [rows]
        rw [hsplit, hrows]
        have hcontrib : rowHeightContrib (c + 1) ((a :: t).take (c + 1)) =
            rowLargest ((a :: t).take (c + 1)).dropLast := by
          unfold rowHeightContrib
          rw [if_pos hlen1]
        simp only [List.map_cons, List.sum_cons, hcontrib]
        omega

lemma placeRowAt_append (y : Nat) :
    ∀ (l₁ l₂ : List (Nat × Nat)) (x : Nat),
      placeRowAt x y (l₁ ++ l₂) =
        placeRowAt x y l₁ ++
          placeRowAt (l₁.foldl (fun ax wh => ax + THUMBNAIL_MARGIN_IN_IMAGE + wh.1) x) y l₂
  | [], l₂, x => by simp [placeRowAt]
  | wh :: t, l₂, x => by
    simp only [List.cons_append, placeRowAt, List.foldl_cons, List.append_eq]
    rw [placeRowAt_append y t l₂ (x + THUMBNAIL_MARGIN_IN_IMAGE + wh.1)]

lemma posterPlaceLoop_no_wrap :
    ∀ (l rest : List (Nat × Nat)) (x y col largest : Nat),
      col + l.length < MAX_THUMBNAILS_PER_ROW_IN_IMAGE →
      posterPlaceLoop (l ++ rest) (x, y) col largest =
        placeRowAt x y l ++
          posterPlaceLoop rest
            (l.foldl (fun ax wh => ax + THUMBNAIL_MARGIN_IN_IMAGE + wh.1) x, y)
            (col + l.length)
            (l.foldl (fun lg wh => if lg < wh.2 then wh.2 else lg) largest)
  | [], rest, x, y, col, largest, _ => by simp [placeRowAt]
  | wh :: t, rest, x, y, col, largest, h => by
    have hlt : ¬ (col + 1 ≥ MAX_THUMBNAILS_PER_ROW_IN_IMAGE) := by
      simp [List.length_cons] at h
      omega
    have ht : (col + 1) + t.length < MAX_THUMBNAILS_PER_ROW_IN_IMAGE := by
      simp [List.length_cons] at h
      omega
    simp only [List.cons_append, posterPlaceLoop, placeRowAt, hlt, if_false,
      List.foldl_cons, List.append_eq]
    rw [posterPlaceLoop_no_wrap t rest (x + THUMBNAIL_MARGIN_IN_IMAGE + wh.1) y
      (col + 1) (if largest < wh.2 then wh.2 else largest) ht]
    have harith : col + 1 + t.length = col + (wh :: t).length := by
      simp [List.length_cons]
      omega
    rw [harith]

lemma posterPlaceLoop_full_row (l rest : List (Nat × Nat))
    (hl : l.length = MAX_THUMBNAILS_PER_ROW_IN_IMAGE) (y : Nat) :
    posterPlaceLoop (l ++ rest) (THUMBNAIL_MARGIN_IN_IMAGE, y) 0 0 =
      placeRowAt THUMBNAIL_MARGIN_IN_IMAGE y l ++
        posterPlaceLoop rest
          (THUMBNAIL_MARGIN_IN_IMAGE, y + THUMBNAIL_MARGIN_IN_IMAGE + rowTallest l)
          0 0 := by
  have hmax : MAX_THUMBNAILS_PER_ROW_IN_IMAGE = 20 := rfl
  rcases List.eq_nil_or_concat l with rfl | ⟨L, b, rfl⟩
  · simp [hmax] at hl
  · simp only [List.concat_eq_append] at hl ⊢
    have hL : L.length = MAX_THUMBNAILS_PER_ROW_IN_IMAGE - 1 := by
      simp at hl
      omega
    have hlt : 0 + L.length < MAX_THUMBNAILS_PER_ROW_IN_IMAGE := by omega
    rw [List.append_assoc, List.singleton_append,
      posterPlaceLoop_no_wrap L (b :: rest) THUMBNAIL_MARGIN_IN_IMAGE y 0 0 hlt]
    have hge : (0 + L.length) + 1 ≥ MAX_THUMBNAILS_PER_ROW_IN_IMAGE := by omega
    simp only [posterPlaceLoop, hge, if_true]
    rw [placeRowAt_append y L [b] THUMBNAIL_MARGIN_IN_IMAGE]
    simp only [placeRowAt, List.append_assoc, List.singleton_append]
    have htall : (if List.foldl (fun lg wh => if lg < wh.2 then wh.2 else lg) 0 L < b.2
        then b.2
        else List.foldl (fun lg wh => if lg < wh.2 then wh.2 else lg) 0 L) =
        rowTallest (L ++ [b]) := by
      simp [rowTallest, List.foldl_append]
    rw [htall]

lemma posterPlaceLoop_rows :
    ∀ (n : Nat) (thumbs : List (Nat × Nat)), thumbs.length ≤ n → ∀ y : Nat,
      posterPlaceLoop thumbs (THUMBNAIL_MARGIN_IN_IMAGE, y) 0 0 =
        placeRowsAt y (rows MAX_THUMBNAILS_PER_ROW_IN_IMAGE thumbs) := by
  intro n
  induction n with
  | zero =>
    intro thumbs hlen y
    have hnil : thumbs = [] := List.eq_nil_of_length_eq_zero (by omega)
    subst hnil
    simp [posterPlaceLoop, placeRowsAt, rows]
  | succ n ihn =>
    intro thumbs hlen y
    match thumbs with
    | [] => simp [posterPlaceLoop, placeRowsAt, rows]
    | a :: t =>
      have hmax : MAX_THUMBNAILS_PER_ROW_IN_IMAGE = 20 := rfl
      by_cases hshort : (a :: t).length < MAX_THUMBNAILS_PER_ROW_IN_IMAGE
      · have hnw := posterPlaceLoop_no_wrap (a :: t) []
          THUMBNAIL_MARGIN_IN_IMAGE y 0 0 (by omega)
        rw [List.append_nil] at hnw
        rw [hnw]
        have htake : t.take 19 = t := List.take_of_length_le
          (by simp [hmax, List.length_cons] at hshort; omega)
        have hdrop : t.drop 19 = [] := List.drop_eq_nil_of_le
          (by simp [hmax, List.length_cons] at hshort; omega)
        have hrows : rows MAX_THUMBNAILS_PER_ROW_IN_IMAGE (a :: t) = [a :: t] := by
          rw [hmax]
          simp [rows, htake, hdrop]
        rw [hrows]
        simp [placeRowsAt, posterPlaceLoop]
      · have hsplit : (a :: t).take MAX_THUMBNAILS_PER_ROW_IN_IMAGE
            ++ (a :: t).drop MAX_THUMBNAILS_PER_ROW_IN_IMAGE = a :: t :=
          List.take_append_drop MAX_THUMBNAILS_PER_ROW_IN_IMAGE (a :: t)
        have hlen1 : ((a :: t).take MAX_THUMBNAILS_PER_ROW_IN_IMAGE).length =
            MAX_THUMBNAILS_PER_ROW_IN_IMAGE := by
          simp only [List.length_take, List.length_cons]
          simp only [List.length_cons] at hshort
          omega
        rw [← hsplit,
          posterPlaceLoop_full_row ((a :: t).take MAX_THUMBNAILS_PER_ROW_IN_IMAGE)
            ((a :: t).drop MAX_THUMBNAILS_PER_ROW_IN_IMAGE) hlen1 y,
          ihn ((a :: t).drop MAX_THUMBNAILS_PER_ROW_IN_IMAGE)
            (by simp [List.length_drop, hmax] at hlen ⊢; omega)]
        have hrows : rows MAX_THUMBNAILS_PER_ROW_IN_IMAGE (a :: t) =
            (a :: t).take MAX_THUMBNAILS_PER_ROW_IN_IMAGE ::
              rows MAX_THUMBNAILS_PER_ROW_IN_IMAGE
                ((a :: t).drop MAX_THUMBNAILS_PER_ROW_IN_IMAGE) := by
          rw [hmax]
          simp [rows]
        rw [hsplit, hrows]
        simp [placeRowsAt]

lemma rows_of_length_le {α : Type} [DecidableEq α] (chunk : Nat) (hc : 1 ≤ chunk)
    (l : List α) (hl : l.length ≤ chunk) :
    rows chunk l = if l = [] then [] else [l] := by
  match l with
  | [] => simp [rows]
  | a :: t =>
    obtain ⟨c, rfl⟩ : ∃ c, chunk = c + 1 := ⟨chunk - 1, by omega⟩
    have htake : t.take c = t := List.take_of_length_le
      (by simp [List.length_cons] at hl; omega)
    have hdrop : t.drop c = [] := List.drop_eq_nil_of_le
      (by simp [List.length_cons] at hl; omega)
    simp [rows, htake, hdrop]

lemma rows_head_length {α : Type} (chunk : Nat) (a : α) (t : List α) :
    ∃ r rest, rows (chunk + 1) (a :: t) = r :: rest ∧
      r.length = min (chunk + 1) (a :: t).length := by
  refine ⟨a :: t.take chunk, rows (chunk + 1) (t.drop chunk), by simp [rows], ?_⟩
  simp [List.length_take, List.length_cons]
  omega

lemma rows_eq_iff {α : Type} [DecidableEq α] (chunk : Nat) (hc : 1 ≤ chunk)
    (hne : chunk ≠ MAX_THUMBNAILS_PER_ROW_IN_IMAGE) (l : List α) :
    rows chunk l = rows MAX_THUMBNAILS_PER_ROW_IN_IMAGE l ↔
      l.length ≤ min chunk MAX_THUMBNAILS_PER_ROW_IN_IMAGE := by
  have hmax : MAX_THUMBNAILS_PER_ROW_IN_IMAGE = 20 := rfl
  constructor
  · intro heq
    by_contra hgt
    push_neg at hgt
    match l with
    | [] => simp at hgt
    | a :: t =>
      obtain ⟨c, rfl⟩ : ∃ c, chunk = c + 1 := ⟨chunk - 1, by omega⟩
      obtain ⟨r₁, rest₁, hr₁, hlen₁⟩ := rows_head_length c a t
      obtain ⟨r₂, rest₂, hr₂, hlen₂⟩ := rows_head_length 19 a t
      rw [hmax] at heq
      rw [hr₁, hr₂] at heq
      have : r₁ = r₂ := (List.cons.injEq _ _ _ _ ▸ heq).1
      have hminq : min (c + 1) (a :: t).length = min (19 + 1) (a :: t).length := by
        rw [← hlen₁, ← hlen₂, this]
      rw [hmax] at hgt hne
      omega
  · intro hle
    rw [rows_of_length_le chunk hc l (by omega),
      rows_of_length_le MAX_THUMBNAILS_PER_ROW_IN_IMAGE (by rw [hmax]; omega) l
        (by rw [hmax] at hle ⊢; omega)]

lemma replaceListGo_ne_nil (pat repl : List Char) (fuel : Nat) (l : List Char)
    (hl : l ≠ []) (hr : repl ≠ []) : replaceListGo pat repl fuel l ≠ [] := by
  match fuel, l with
  | _, [] => exact absurd rfl hl
  | 0, c :: rest => simp [replaceListGo]
  | fuel + 1, c :: rest =>
    unfold replaceListGo
    split
    · simp [hr]
    · simp

lemma replaceList_ne_nil (pat repl : List Char) (l : List Char)
    (hl : l ≠ []) (hr : repl ≠ []) : replaceList pat repl l ≠ [] :=
  replaceListGo_ne_nil pat repl l.length l hl hr

lemma string_toList_ne_nil (s : String) (hs : s ≠ "") : s.toList ≠ [] := by
  intro h
  exact hs (String.ext h)

lemma asString_ne_empty (l : List Char) (hl : l ≠ []) : List.asString l ≠ "" := by
  intro h
  exact hl (congrArg String.data h)

lemma pyReplace_ne_empty (s pat repl : String) (hs : s ≠ "") (hr : repl ≠ "") :
    pyReplace s pat repl ≠ "" := by
  unfold pyReplace
  exact asString_ne_empty _
    (replaceList_ne_nil pat.toList repl.toList s.toList
      (string_toList_ne_nil s hs) (string_toList_ne_nil repl hr))

lemma rewrittenPostUrl_ne_empty (u : String) (hu : u ≠ "") :
    rewrittenPostUrl u ≠ "" := by
  unfold rewrittenPostUrl
  exact pyReplace_ne_empty _ _ _ (pyReplace_ne_empty _ _ _ hu (by decide)) (by decide)

lemma processComment_inv (reSearch : String → String → Option ReMatch)
    (endorsed : String → Bool) (c : BeemComment) (p : ParsedComment)
    (h : processComment reSearch endorsed c = some p) :
    c.author ∉ AUTHOR_BLACKLIST ∧
    p.author = c.author ∧
    (_parseCommentBody reSearch c).postUrl ≠ "" ∧
    p.postUrl = rewrittenPostUrl (_parseCommentBody reSearch c).postUrl ∧
    endorsed (hivePermlinkOf (_parseCommentBody reSearch c).postUrl) = true ∧
    ((_parseCommentBody reSearch c).imageUrl = "" →
      p.imageUrl = DEFAULT_IMAGE_URL ∧ p.isDefaultImage = true) ∧
    ((_parseCommentBody reSearch c).imageUrl ≠ "" →
      p.imageUrl = (_parseCommentBody reSearch c).imageUrl ∧
        p.isDefaultImage = false) := by
  unfold processComment at h
  by_cases h₁ : c.author ∈ AUTHOR_BLACKLIST
  · simp [h₁] at h
  · simp only [h₁, if_false, if_true] at h
    by_cases h₂ : (_parseCommentBody reSearch c).postUrl = ""
    · simp [h₂] at h
    · simp only [h₂, if_false, if_true] at h
      by_cases h₃ : endorsed (hivePermlinkOf (_parseCommentBody reSearch c).postUrl)
      · simp only [h₃, if_true] at h
        by_cases h₄ : (_parseCommentBody reSearch c).imageUrl = ""
        · simp only [h₄, if_true, Option.some.injEq] at h
          subst h
          simp_all [_parseCommentBody]
        · simp only [h₄, if_false, Option.some.injEq] at h
          subst h
          simp_all [_parseCommentBody]
      · simp [h₃] at h

/-- A placeholder entry used only as the default of `Option.getD` at
positions where the option is known to be `some`. -/
def blankParsed : ParsedComment :=
  { postUrl := "", imageUrl := "", author := "", isDefaultImage := false }

lemma filterMap_eq_filter_map {α β : Type} (f : α → Option β) (d : β) :
    ∀ l : List α,
      l.filterMap f =
        (l.filter (fun a => (f a).isSome)).map (fun a => (f a).getD d)
  | [] => by simp
  | a :: t => by
    match hfa : f a with
    | none =>
      simp only [List.filterMap_cons, hfa, List.filter_cons, Option.isSome_none,
        Bool.false_eq_true, if_false, cond_false]
      exact filterMap_eq_filter_map f d t
    | some b =>
      simp only [List.filterMap_cons, hfa, List.filter_cons, Option.isSome_some,
        if_true, cond_true, List.map_cons, Option.getD_some]
      exact congrArg (b :: ·) (filterMap_eq_filter_map f d t)

lemma parseComments_author_sublist (reSearch : String → String → Option ReMatch)
    (endorsed : String → Bool) :
    ∀ comments : List BeemComment,
      List.Sublist
        ((_parseComments reSearch endorsed comments).map ParsedComment.author)
        (comments.map BeemComment.author)
  | [] => by simp [_parseComments]
  | c :: t => by
    unfold _parseComments
    match hc : processComment reSearch endorsed c with
    | none =>
      simp only [List.filterMap_cons, hc, List.map_cons]
      exact List.Sublist.cons c.author (parseComments_author_sublist reSearch endorsed t)
    | some p =>
      have hauthor : p.author = c.author := (processComment_inv _ _ _ _ hc).2.1
      simp only [List.filterMap_cons, hc, List.map_cons, hauthor]
      exact List.Sublist.cons₂ c.author (parseComments_author_sublist reSearch endorsed t)

/-- C3: for every list of raw comments (and any behaviour of the `re.search`
and endorsement oracles), every entry in the output of the parse/filter
stage `_parseComments` has a non-empty submission post url and a non-empty
image url — the extracted one or the fallback `DEFAULT_IMAGE_URL`. -/
theorem parseComments_urls_nonempty (reSearch : String → String → Option ReMatch)
    (endorsed : String → Bool) (comments : List BeemComment) (p : ParsedComment)
    (hp : p ∈ _parseComments reSearch endorsed comments) :
    p.postUrl ≠ "" ∧ p.imageUrl ≠ "" := by
  unfold _parseComments at hp
  obtain ⟨c, _, hsome⟩ := List.mem_filterMap.mp hp
  obtain ⟨_, _, hpost, hpurl, _, himg, himg'⟩ :=
    processComment_inv reSearch endorsed c p hsome
  constructor
  · rw [hpurl]
    exact rewrittenPostUrl_ne_empty _ hpost
  · by_cases hi : (_parseCommentBody reSearch c).imageUrl = ""
    · rw [(himg hi).1]
      decide
    · rw [(himg' hi).1]
      exact hi

/-- Witness for C3 at a concrete comment list and concrete oracles. -/
theorem parseComments_urls_nonempty_witness :
    ({ postUrl := "https://peakd.com/p", imageUrl := DEFAULT_IMAGE_URL,
       author := "someauthorx", isDefaultImage := true } : ParsedComment).postUrl ≠ "" ∧
    ({ postUrl := "https://peakd.com/p", imageUrl := DEFAULT_IMAGE_URL,
       author := "someauthorx", isDefaultImage := true } : ParsedComment).imageUrl ≠ "" :=
  parseComments_urls_nonempty
    (fun _ regex =>
      if regex = REGEX_POST_URL then some ⟨Except.ok (some ("https://peakd.com/p"))⟩
      else none)
    (fun _ => true)
    [{ author := "someauthorx", body := "b" }]
    { postUrl := "https://peakd.com/p", imageUrl := DEFAULT_IMAGE_URL,
      author := "someauthorx", isDefaultImage := true }
    (by decide)

/-- Helper: replacing inside the empty string yields the empty string. -/
lemma pyReplace_empty_left (pat repl : String) : pyReplace ("") pat repl = "" := rfl

/-- C4: any comment whose author passes the blocklist, whose post-url
extraction succeeds, whose image-link extraction produced the empty string,
and whose endorsement check passes, yields an entry whose image url is the
configured fallback `DEFAULT_IMAGE_URL` and whose uses-default-image flag is
set. -/
theorem emptyImage_gets_default (reSearch : String → String → Option ReMatch)
    (endorsed : String → Bool) (c : BeemComment)
    (h₁ : c.author ∉ AUTHOR_BLACKLIST)
    (h₂ : _findByRegex reSearch c.body REGEX_POST_URL ≠ "")
    (h₃ : _findByRegex reSearch c.body REGEX_IMAGE_URL = "")
    (h₄ : endorsed (hivePermlinkOf (_findByRegex reSearch c.body REGEX_POST_URL)) = true) :
    ∃ p, processComment reSearch endorsed c = some p ∧
      p.imageUrl = DEFAULT_IMAGE_URL ∧ p.isDefaultImage = true ∧
      _parseComments reSearch endorsed [c] = [p] := by
  have hproc : processComment reSearch endorsed c =
      some { postUrl := rewrittenPostUrl (_findByRegex reSearch c.body REGEX_POST_URL),
             imageUrl := DEFAULT_IMAGE_URL,
             author := c.author,
             isDefaultImage := true } := by
    simp only [processComment, _parseCommentBody, h₁, if_false, h₂, h₃, h₄,
      pyReplace_empty_left, if_true, ite_false, ite_true]
  exact ⟨_, hproc, rfl, rfl, by simp [_parseComments, List.filterMap_cons, hproc]⟩

/-- Witness for C4 at a concrete comment and concrete oracles. -/
theorem emptyImage_gets_default_witness :
    ∃ p, processComment
        (fun _ regex =>
          if regex = REGEX_POST_URL then some ⟨Except.ok (some ("https://peakd.com/p"))⟩
          else none)
        (fun _ => true)
        { author := "someauthorx", body := "b" } = some p ∧
      p.imageUrl = DEFAULT_IMAGE_URL ∧ p.isDefaultImage = true ∧
      _parseComments
        (fun _ regex =>
          if regex = REGEX_POST_URL then some ⟨Except.ok (some ("https://peakd.com/p"))⟩
          else none)
        (fun _ => true)
        [{ author := "someauthorx", body := "b" }] = [p] :=
  emptyImage_gets_default _ _ _ (by decide) (by decide) (by decide) rfl

/-- C5: for any comment list, in any order, and any oracle behaviour, no
entry whose author is in the fixed `AUTHOR_BLACKLIST` appears in the output
of the filter stage `_parseComments`. -/
theorem blacklisted_never_in_output (reSearch : String → String → Option ReMatch)
    (endorsed : String → Bool) (comments : List BeemComment) (p : ParsedComment)
    (hp : p ∈ _parseComments reSearch endorsed comments) :
    p.author ∉ AUTHOR_BLACKLIST := by
  unfold _parseComments at hp
  obtain ⟨c, _, hsome⟩ := List.mem_filterMap.mp hp
  obtain ⟨hbl, hauthor, _⟩ := processComment_inv reSearch endorsed c p hsome
  rw [hauthor]
  exact hbl

/-- Witness for C5 at a concrete comment list and concrete oracles. -/
theorem blacklisted_never_in_output_witness :
    ({ postUrl := "https://peakd.com/p", imageUrl := DEFAULT_IMAGE_URL,
       author := "someauthorx", isDefaultImage := true } : ParsedComment).author ∉
      AUTHOR_BLACKLIST :=
  blacklisted_never_in_output
    (fun _ regex =>
      if regex = REGEX_POST_URL then some ⟨Except.ok (some ("https://peakd.com/p"))⟩
      else none)
    (fun _ => true)
    [{ author := "quantumg", body := "x" }, { author := "someauthorx", body := "b" }]
    { postUrl := "https://peakd.com/p", imageUrl := DEFAULT_IMAGE_URL,
      author := "someauthorx", isDefaultImage := true }
    (by decide)

/-- C6: the filter stage is a stable filter.  The output of `_parseComments`
is exactly the in-order image of the surviving comments (a `filter` of the
input, hence a sublist of it, i.e. a subsequence in the original order),
and consequently the authors of the output entries form a subsequence of
the authors of the input comments: no reordering or sorting happens. -/
theorem parseComments_stable_filter (reSearch : String → String → Option ReMatch)
    (endorsed : String → Bool) (comments : List BeemComment) :
    _parseComments reSearch endorsed comments =
      (comments.filter
          (fun c => (processComment reSearch endorsed c).isSome)).map
        (fun c => (processComment reSearch endorsed c).getD blankParsed) ∧
    List.Sublist
      (comments.filter (fun c => (processComment reSearch endorsed c).isSome))
      comments ∧
    List.Sublist
      ((_parseComments reSearch endorsed comments).map ParsedComment.author)
      (comments.map BeemComment.author) :=
  ⟨filterMap_eq_filter_map (processComment reSearch endorsed) blankParsed comments,
   List.filter_sublist comments,
   parseComments_author_sublist reSearch endorsed comments⟩

/-- C7: the regex extraction is total and soft-failing.  `_findByRegex`
returns a plain string for every oracle behaviour (the one fallible
operation, `matches.group(1)`, is modelled as an `Except` and the embedded
catch handles its error case), and every absence case — no match, a pattern
without a capture group (the caught `IndexError`), and a group that did not
participate — yields the empty string rather than a fault; when the group
captured text, that text (or the empty string, to which Python falsiness
maps it) is returned. -/
theorem findByRegex_total_soft (reSearch : String → String → Option ReMatch)
    (text regex : String) :
    (reSearch text regex = none → _findByRegex reSearch text regex = "") ∧
    (∀ m, reSearch text regex = some m → m.group1 = Except.error () →
      _findByRegex reSearch text regex = "") ∧
    (∀ m, reSearch text regex = some m → m.group1 = Except.ok none →
      _findByRegex reSearch text regex = "") ∧
    (∀ m g, reSearch text regex = some m → m.group1 = Except.ok (some g) →
      _findByRegex reSearch text regex = g ∨
        _findByRegex reSearch text regex = "") := by
  refine ⟨?_, ?_, ?_, ?_⟩
  · intro h
    simp [_findByRegex, h]
  · intro m hm hg
    simp [_findByRegex, hm, hg]
  · intro m hm hg
    simp [_findByRegex, hm, hg]
  · intro m g hm hg
    by_cases hge : g = ""
    · right
      simp [_findByRegex, hm, hg, hge]
    · left
      simp [_findByRegex, hm, hg, hge]

/-- Witness for C7 at a concrete no-match oracle. -/
theorem findByRegex_total_soft_witness :
    _findByRegex (fun _ _ => none) "some malformed text" REGEX_POST_URL = "" :=
  (findByRegex_total_soft (fun _ _ => none) "some malformed text" REGEX_POST_URL).1 rfl

/-- C8: both document renderers return the failure value (`None`/`False`,
modelled as `none`) whenever the body template file or the per-entry
template file is missing from disk, for every entry list. -/
theorem renderers_fail_on_missing_template (fs : String → Option String)
    (parsedComments : List ParsedComment) :
    ((fs ("template_md_body.tpl") = none ∨ fs ("template_md_image.tpl") = none) →
      _createMarkdownFromParsedComments fs parsedComments = none) ∧
    ((fs ("template_html_body.tpl") = none ∨ fs ("template_html_image.tpl") = none) →
      _createHtmlMarkupFromParsedComments fs parsedComments = none) := by
  constructor
  · intro h
    rcases h with h | h <;>
      simp [_createMarkdownFromParsedComments, _loadTemplateFile, h, pyFalsyStr]
  · intro h
    rcases h with h | h <;>
      simp [_createHtmlMarkupFromParsedComments, _loadTemplateFile, h, pyFalsyStr]

/-- Witness for C8: an empty disk makes both renderers fail. -/
theorem renderers_fail_on_missing_template_witness :
    _createMarkdownFromParsedComments (fun _ => none) [] = none ∧
    _createHtmlMarkupFromParsedComments (fun _ => none) [] = none :=
  ⟨(renderers_fail_on_missing_template (fun _ => none) []).1 (Or.inl rfl),
   (renderers_fail_on_missing_template (fun _ => none) []).2 (Or.inl rfl)⟩

/-- C10: the renderers test template presence by Python truthiness of the
loaded content, so a template file that exists but is empty also makes them
return the failure value: a `none` result does not imply a missing file. -/
theorem renderers_fail_on_empty_template (fs : String → Option String)
    (parsedComments : List ParsedComment) :
    ((fs ("template_md_body.tpl") = some ("") ∨ fs ("template_md_image.tpl") = some ("")) →
      _createMarkdownFromParsedComments fs parsedComments = none) ∧
    ((fs ("template_html_body.tpl") = some ("") ∨ fs ("template_html_image.tpl") = some ("")) →
      _createHtmlMarkupFromParsedComments fs parsedComments = none) := by
  constructor
  · intro h
    rcases h with h | h <;>
      simp [_createMarkdownFromParsedComments, _loadTemplateFile, h, pyFalsyStr]
  · intro h
    rcases h with h | h <;>
      simp [_createHtmlMarkupFromParsedComments, _loadTemplateFile, h, pyFalsyStr]

/-- Witness for C10: a disk on which every file exists with empty content
still makes both renderers fail, exhibiting a `none` result with no missing
file. -/
theorem renderers_fail_on_empty_template_witness :
    _createMarkdownFromParsedComments (fun _ => some ("")) [] = none ∧
    _createHtmlMarkupFromParsedComments (fun _ => some ("")) [] = none :=
  ⟨(renderers_fail_on_empty_template (fun _ => some ("")) []).1 (Or.inl rfl),
   (renderers_fail_on_empty_template (fun _ => some ("")) []).2 (Or.inl rfl)⟩

lemma suffix_cons_elim {α : Type} (l : List α) (a : α) (m : List α)
    (h : l <:+ a :: m) (hlen : l.length ≤ m.length) : l <:+ m := by
  obtain ⟨t, ht⟩ := h
  match t with
  | [] =>
    simp only [List.nil_append] at ht
    rw [ht] at hlen
    simp at hlen
  | b :: t' =>
    refine ⟨t', ?_⟩
    have ht' : b :: (t' ++ l) = a :: m := by simpa using ht
    exact (List.cons.injEq _ _ _ _ ▸ ht').2

lemma suffix_append_elim {α : Type} :
    ∀ (xs cs l : List α), l <:+ xs ++ cs → l.length ≤ cs.length → l <:+ cs
  | [], cs, l, h, _ => by simpa using h
  | a :: xs, cs, l, h, hlen => by
    have h' : l <:+ xs ++ cs :=
      suffix_cons_elim l a (xs ++ cs) (by simpa using h)
        (by simp only [List.length_append]; omega)
    exact suffix_append_elim xs cs l h' hlen

lemma string_append_data (s t : String) : (s ++ t).data = s.data ++ t.data :=
  String.data_append s t

/-- C9: with no caller-supplied filename, the generated document name ends
in `.html` in markup mode, and in the bare characters `md` — not in `.md` —
otherwise, whatever the formatted date prefix is. -/
theorem savedFileName_extension (nowDateStr : String) :
    (".html".data <:+ (_saveMarkdownFileName true none nowDateStr).data) ∧
    ("md".data <:+ (_saveMarkdownFileName false none nowDateStr).data) ∧
    ¬ (".md".data <:+ (_saveMarkdownFileName false none nowDateStr).data) := by
  have hhtml : (_saveMarkdownFileName true none nowDateStr).data =
      nowDateStr.data ++ ("-GeneratedImageSheet".data ++ ".html".data) := by
    simp [_saveMarkdownFileName, string_append_data, List.append_assoc]
  have hmd : (_saveMarkdownFileName false none nowDateStr).data =
      nowDateStr.data ++ ("-GeneratedImageSheet".data ++ "md".data) := by
    simp [_saveMarkdownFileName, string_append_data, List.append_assoc]
  refine ⟨?_, ?_, ?_⟩
  · rw [hhtml]
    exact List.IsSuffix.trans (by decide)
      (List.suffix_append nowDateStr.data ("-GeneratedImageSheet".data ++ ".html".data))
  · rw [hmd]
    exact List.IsSuffix.trans (by decide)
      (List.suffix_append nowDateStr.data ("-GeneratedImageSheet".data ++ "md".data))
  · rw [hmd]
    intro h
    have hsuf : ".md".data <:+ "-GeneratedImageSheet".data ++ "md".data :=
      suffix_append_elim nowDateStr.data _ _ h (by decide)
    exact absurd hsuf (by decide)

/-- Counterexample to C1 as stated: on the spec's own example — thumbnail
heights `[50, 40, 80, 60, 30]`, margin 10, `columns = 2` — the code returns
220, not the claimed 210: the trailing partial row receives one extra margin
unit, and each full row's tallest-tracker never sees the row's flushing
(last) thumbnail. -/
theorem calcHeight_claim_counterexample :
    _calculateImageHeightByParsedComments [50, 40, 80, 60, 30] 2 = 220 ∧
    _calculateImageHeightByParsedComments [50, 40, 80, 60, 30] 2 ≠ 210 := by
  decide

/-- C1 (amended): for every height sequence and every `columns ≥ 1`, pass 1
returns two margin units (leading and trailing) plus, for every full row of
exactly `columns` thumbnails, the maximum of `height + margin` over the row
WITHOUT its last thumbnail (the flush at `col >= columns` happens before the
flushing thumbnail can enter the tallest-tracker), plus, for a trailing
partial row, the maximum of `height + margin` over the whole partial row
plus one extra margin unit.  On heights `[50, 40, 80, 60, 30]` with
`columns = 2` this yields `10 + 60 + 90 + (40 + 10) + 10 = 220`. -/
theorem calcHeight_formula (heights : List Nat) (columns : Nat)
    (hc : 1 ≤ columns) :
    _calculateImageHeightByParsedComments heights columns =
      2 * THUMBNAIL_MARGIN_IN_IMAGE +
        ((rows columns heights).map (rowHeightContrib columns)).sum := by
  unfold _calculateImageHeightByParsedComments
  rw [calcHeight_characterization columns hc heights.length heights le_rfl
    THUMBNAIL_MARGIN_IN_IMAGE]
  omega

/-- Witness for C1 (amended) at the spec's example input. -/
theorem calcHeight_formula_witness :
    1 ≤ 2 ∧
    _calculateImageHeightByParsedComments [50, 40, 80, 60, 30] 2 =
      2 * THUMBNAIL_MARGIN_IN_IMAGE +
        ((rows 2 [50, 40, 80, 60, 30]).map (rowHeightContrib 2)).sum :=
  ⟨by decide, calcHeight_formula [50, 40, 80, 60, 30] 2 (by decide)⟩

/-- Counterexample to C2 as stated: the claim asserts that for EVERY
thumbnail sequence the two passes partition the sequence into rows
differently whenever `columns ≠ 20`; but with `columns = 2` a single
thumbnail is put into the single row `[[(160, 50)]]` by both wrap rules, so
the two partitions coincide. -/
theorem rowWrap_claim_counterexample :
    rows 2 [((160 : Nat), (50 : Nat))] =
      rows MAX_THUMBNAILS_PER_ROW_IN_IMAGE [((160 : Nat), (50 : Nat))] ∧
    (2 : Nat) ≠ MAX_THUMBNAILS_PER_ROW_IN_IMAGE := by
  constructor
  · rw [rows_of_length_le 2 (by decide) _ (by decide),
      rows_of_length_le MAX_THUMBNAILS_PER_ROW_IN_IMAGE (by decide) _ (by decide)]
  · decide

/-- C2 (amended): pass 1 wraps rows by the `columns` parameter (its height
is the row-wise formula over `rows columns`), while pass-2 placement wraps
at the fixed `MAX_THUMBNAILS_PER_ROW_IN_IMAGE = 20` — the placement
component of `_createThumbnailPoster` ignores `columns` entirely and groups
the thumbnails as `rows 20`.  For `columns ≠ 20` (and `columns ≥ 1`) the two
partitions nevertheless COINCIDE on every sequence of at most
`min columns 20` thumbnails (both produce a single row), and differ exactly
on the longer sequences. -/
theorem rowWrap_divergence (thumbs : List (Nat × Nat)) (columns : Nat)
    (hc : 1 ≤ columns) (hne : columns ≠ MAX_THUMBNAILS_PER_ROW_IN_IMAGE) :
    ((_createThumbnailPoster thumbs MAX_THUMBNAIL_WIDTH_IN_IMAGE columns).2.2 =
      placeRowsAt THUMBNAIL_MARGIN_IN_IMAGE
        (rows MAX_THUMBNAILS_PER_ROW_IN_IMAGE thumbs)) ∧
    (_calculateImageHeightByParsedComments (thumbs.map Prod.snd) columns =
      2 * THUMBNAIL_MARGIN_IN_IMAGE +
        ((rows columns (thumbs.map Prod.snd)).map
          (rowHeightContrib columns)).sum) ∧
    (rows columns thumbs = rows MAX_THUMBNAILS_PER_ROW_IN_IMAGE thumbs ↔
      thumbs.length ≤ min columns MAX_THUMBNAILS_PER_ROW_IN_IMAGE) := by
  refine ⟨?_, ?_, rows_eq_iff columns hc hne thumbs⟩
  · exact posterPlaceLoop_rows thumbs.length thumbs le_rfl
      THUMBNAIL_MARGIN_IN_IMAGE
  · unfold _calculateImageHeightByParsedComments
    rw [calcHeight_characterization columns hc (thumbs.map Prod.snd).length
      (thumbs.map Prod.snd) le_rfl THUMBNAIL_MARGIN_IN_IMAGE]
    omega

/-- Witness for C2 (amended) at a concrete three-thumbnail sequence and
`columns = 2`: the partitions differ because the sequence is longer than
`min 2 20`. -/
theorem rowWrap_divergence_witness :
    ((_createThumbnailPoster [(160, 50), (160, 60), (160, 70)]
        MAX_THUMBNAIL_WIDTH_IN_IMAGE 2).2.2 =
      placeRowsAt THUMBNAIL_MARGIN_IN_IMAGE
        (rows MAX_THUMBNAILS_PER_ROW_IN_IMAGE
          [(160, 50), (160, 60), (160, 70)])) ∧
    (_calculateImageHeightByParsedComments
        ([(160, 50), (160, 60), (160, 70)].map Prod.snd) 2 =
      2 * THUMBNAIL_MARGIN_IN_IMAGE +
        ((rows 2 ([(160, 50), (160, 60), (160, 70)].map Prod.snd)).map
          (rowHeightContrib 2)).sum) ∧
    (rows 2 [(160, 50), (160, 60), (160, 70)] =
        rows MAX_THUMBNAILS_PER_ROW_IN_IMAGE [(160, 50), (160, 60), (160, 70)] ↔
      [(160, 50), (160, 60), (160, 70)].length ≤
        min 2 MAX_THUMBNAILS_PER_ROW_IN_IMAGE) :=
  rowWrap_divergence [(160, 50), (160, 60), (160, 70)] 2 (by decide) (by decide)
